import Mathlib

/-!
Verification of the Odoo 18 JSON-RPC client scripts.

The development shallowly embeds the JSON-RPC client
(`odoo_jsonrpc_client.py`), the bulk-update grouping script
(`update_data.py`) and the post-write verification script
(`update_picking_status.py`).  JSON payloads are modelled by the
inductive type `JVal`; the HTTP transport is abstracted by an oracle
function supplying the server's responses, and every client operation
returns both its outcome and the trace of requests it attempted, so
that "no network call is made" is a provable statement.
-/

namespace Odoo

/-- JSON values as exchanged with the server.  Objects keep their keys in
insertion order, exactly as Python dictionaries do.  Floating-point
numbers do not occur in any payload of these scripts and are not
modelled. -/
inductive JVal where
  | null : JVal
  | bool (b : Bool) : JVal
  | int (n : Int) : JVal
  | str (s : String) : JVal
  | list (xs : List JVal) : JVal
  | obj (kvs : List (String × JVal)) : JVal

/-- Python truthiness (`bool(x)`): `None`, `False`, `0`, the empty string,
the empty list and the empty dict are falsy, everything else is truthy. -/
def truthy : JVal → Bool
  | .null => false
  | .bool b => b
  | .int n => n != 0
  | .str s => !s.isEmpty
  | .list xs => !xs.isEmpty
  | .obj kvs => !kvs.isEmpty

mutual
/-- Python equality (`==`) on JSON-shaped values.  Booleans compare equal
to the integers 0/1 as in Python.  Two objects are compared pointwise in
order; in this development no compared value is ever an object, so the
order-insensitivity of Python dict equality is not exercised. -/
def pyEq : JVal → JVal → Bool
  | .null, .null => true
  | .bool a, .bool b => a == b
  | .bool a, .int n => (if a then (1 : Int) else 0) == n
  | .int n, .bool a => n == (if a then (1 : Int) else 0)
  | .int m, .int n => m == n
  | .str s, .str t => s == t
  | .list xs, .list ys => pyEqList xs ys
  | .obj a, .obj b => pyEqObj a b
  | _, _ => false

def pyEqList : List JVal → List JVal → Bool
  | [], [] => true
  | x :: xs, y :: ys => pyEq x y && pyEqList xs ys
  | _, _ => false

def pyEqObj : List (String × JVal) → List (String × JVal) → Bool
  | [], [] => true
  | (k, v) :: xs, (k2, v2) :: ys => k == k2 && pyEq v v2 && pyEqObj xs ys
  | _, _ => false
end

/-- Look a key up in a JSON object (`d.get(key)`); `none` when the value
is not an object or the key is absent. -/
def getKey : JVal → String → Option JVal
  | .obj kvs, k => (kvs.find? (fun kv => kv.1 == k)).map (·.2)
  | _, _ => none

/-- An association list standing for a Python dict payload. -/
abbrev Obj := List (String × JVal)

/-- Lookup `d.get(k)` on an association-list dict. -/
def objGet (u : Obj) (k : String) : Option JVal :=
  (u.find? (fun kv => kv.1 == k)).map (·.2)

/-- Assignment `d[k] = v` on an association-list dict: replace the value in place if
the key exists (keeping its position), otherwise append the pair. -/
def setItem (u : Obj) (k : String) (v : JVal) : Obj :=
  if (u.find? (fun kv => kv.1 == k)).isSome then
    u.map (fun kv => if kv.1 == k then (k, v) else kv)
  else
    u ++ [(k, v)]

/-- The single-quote character, used by Python `repr` for strings. -/
def squote : String := String.singleton (Char.ofNat 39)

mutual
/-- Python `repr` of a JSON-shaped value (the rendering `str` applies to
values nested inside containers).  String escaping is not modelled; no
string in these payloads contains a quote or backslash. -/
def pyRepr : JVal → String
  | .null => "None"
  | .bool true => "True"
  | .bool false => "False"
  | .int n => toString n
  | .str s => squote ++ s ++ squote
  | .list xs => "[" ++ String.intercalate ", " (pyReprList xs) ++ "]"
  | .obj kvs => "\x7b" ++ String.intercalate ", " (pyReprObj kvs) ++ "\x7d"

def pyReprList : List JVal → List String
  | [] => []
  | v :: r => pyRepr v :: pyReprList r

def pyReprObj : List (String × JVal) → List String
  | [] => []
  | (k, v) :: r => (squote ++ k ++ squote ++ ": " ++ pyRepr v) :: pyReprObj r
end

/-- Python `str` of a value: a string renders as itself, anything else as
its `repr`. -/
def pyStr : JVal → String
  | .str s => s
  | v => pyRepr v

/-- JSON rendering of a string (double quotes; escaping is not modelled,
no serialized string in these scripts contains a quote or backslash). -/
def jstr (s : String) : String := "\"" ++ s ++ "\""

mutual
/-- Serialization `json.dumps` with the default separators. -/
def dumps : JVal → String
  | .null => "null"
  | .bool true => "true"
  | .bool false => "false"
  | .int n => toString n
  | .str s => jstr s
  | .list xs => "[" ++ String.intercalate ", " (dumpsList xs) ++ "]"
  | .obj kvs => "\x7b" ++ String.intercalate ", " (dumpsObj kvs) ++ "\x7d"

def dumpsList : List JVal → List String
  | [] => []
  | v :: r => dumps v :: dumpsList r

def dumpsObj : List (String × JVal) → List String
  | [] => []
  | (k, v) :: r => (jstr k ++ ": " ++ dumps v) :: dumpsObj r
end

/-- Lexicographic code-point order on character lists (Python's string
order). -/
def charsLt : List Char → List Char → Bool
  | [], [] => false
  | [], _ :: _ => true
  | _ :: _, [] => false
  | c :: cs, d :: ds =>
    Nat.blt c.toNat d.toNat || (c == d && charsLt cs ds)

/-- Python's string comparison `a < b`. -/
def keyLt (a b : String) : Bool :=
  charsLt a.toList b.toList

/-- Insert a key-value pair into a key-sorted association list. -/
def insertField (p : String × JVal) : Obj → Obj
  | [] => [p]
  | q :: r => if keyLt p.1 q.1 then p :: q :: r else q :: insertField p r

/-- Sort an association list by key (Python `sorted` on the keys). -/
def sortFields : Obj → Obj
  | [] => []
  | p :: r => insertField p (sortFields r)

mutual
/-- Recursively sort every object's keys, so that plain `dumps` of the
result equals `json.dumps(·, sort_keys=True)` of the original. -/
def canon : JVal → JVal
  | .null => .null
  | .bool b => .bool b
  | .int n => .int n
  | .str s => .str s
  | .list xs => .list (canonList xs)
  | .obj kvs => .obj (sortFields (canonObj kvs))

def canonList : List JVal → List JVal
  | [] => []
  | v :: r => canon v :: canonList r

def canonObj : List (String × JVal) → List (String × JVal)
  | [] => []
  | (k, v) :: r => (k, canon v) :: canonObj r
end

/-- The typed failures raised by the transport and client layers
(`ValueError` with distinct messages in the source; here one tag per
raise site, carrying the message's variable parts). -/
inductive ClientError where
  /-- Failure `ValueError(f"JSON-RPC Error: msg - debug")` for a plain error
  envelope (`_make_request`, no-retry branch). -/
  | remote (msg : String) (debug : String) : ClientError
  /-- Failure `ValueError(f"JSON-RPC Error after re-auth: ...")` when the retried
  request errors again. -/
  | remoteAfterReauth (msg : String) (debug : String) : ClientError
  /-- Failure `ValueError(f"JSON-RPC Error: msg - Failed to re-authenticate")`
  when `authenticate()` returns a falsy value during the retry. -/
  | reauthFailed (msg : String) : ClientError
  /-- Failure `ValueError("Authentication failed: No UID returned")`. -/
  | authFailed : ClientError
  /-- Failure `ValueError("Not authenticated. Call authenticate() first.")`. -/
  | notAuthenticated : ClientError
  /-- Failure `ValueError("Fields list is required. ...")` (empty whitelist). -/
  | invalidFields : ClientError
  /-- Failure `ValueError(f"Record id not found in model model")`. -/
  | notFound (model : String) (recordId : Int) : ClientError

/-- The mutable connection state of `OdooJSONRPCClient` (credentials plus
the session fields `uid`/`session_id`; the base URL and the cookie jar
live entirely inside the transport and are not modelled). -/
structure ClientState where
  db : String
  username : String
  password : String
  uid : Option JVal
  sessionId : Option JVal

/-- Negation of `if not self.uid`: whether the stored uid is present and
truthy (an absent session or a falsy uid such as `0` both fail the
check). -/
def truthyUid (st : ClientState) : Bool :=
  match st.uid with
  | none => false
  | some v => truthy v

/-- Abstraction of `_make_request`: the server's response to a request,
keyed by endpoint path and params object. -/
abbrev Send := String → JVal → Except ClientError JVal

/-- Outcome of a client operation together with the trace of requests it
handed to the transport (endpoint path and params object, in order). -/
abbrev ClientResult (α : Type) := Except ClientError α × List (String × JVal)

/-- Endpoint used by `call_kw`. -/
def callKwEndpoint : String := "/web/dataset/call_kw"

/-- Endpoint used by `authenticate`. -/
def authEndpoint : String := "/web/session/authenticate"

/-- The params object `call_kw` builds: note the hard-coded empty
`context`; the method has no context parameter. -/
def callKwParams (model method : String) (args : List JVal) (kwargs : Obj) : JVal :=
  .obj [("model", .str model), ("method", .str method), ("args", .list args),
        ("kwargs", .obj kwargs), ("context", .obj [])]

/-- Method `OdooJSONRPCClient.call_kw`. -/
def callKw (st : ClientState) (send : Send) (model method : String)
    (args : List JVal) (kwargs : Obj) : ClientResult JVal :=
  if truthyUid st then
    let p := callKwParams model method args kwargs
    (send callKwEndpoint p, [(callKwEndpoint, p)])
  else
    (.error .notAuthenticated, [])

/-- The params object `authenticate` sends. -/
def authParams (st : ClientState) : JVal :=
  .obj [("db", .str st.db), ("login", .str st.username), ("password", .str st.password)]

/-- Method `OdooJSONRPCClient.authenticate`: on a truthy response carrying a
`uid` key, store `uid` and `session_id` and return `True`; otherwise
raise.  Returns the updated state alongside the boolean. -/
def authenticate (st : ClientState) (send : Send) : ClientResult (Bool × ClientState) :=
  let tr := [(authEndpoint, authParams st)]
  match send authEndpoint (authParams st) with
  | .error e => (.error e, tr)
  | .ok result =>
    if truthy result && (getKey result "uid").isSome then
      (.ok (true, { st with uid := getKey result "uid",
                            sessionId := getKey result "session_id" }), tr)
    else
      (.error .authFailed, tr)

/-- Method `OdooJSONRPCClient.read_record`.  A truthy non-list response cannot
occur under the `read` protocol (the server answers with a list of
records or a falsy value); it is mapped to the not-found failure here,
where the source would fail computing `len`. -/
def readRecord (st : ClientState) (send : Send) (model : String)
    (recordId : Int) (fields : List String) : ClientResult JVal :=
  if fields.isEmpty then
    (.error .invalidFields, [])
  else
    match callKw st send model "read" [.list [.int recordId]]
        [("fields", .list (fields.map JVal.str))] with
    | (.ok (.list (r :: _)), tr) => (.ok r, tr)
    | (.ok _, tr) => (.error (.notFound model recordId), tr)
    | (.error e, tr) => (.error e, tr)

/-- Method `OdooJSONRPCClient.search_read` (`return result if result else []`). -/
def searchRead (st : ClientState) (send : Send) (model : String)
    (domain : JVal) (fields : List String) : ClientResult JVal :=
  if fields.isEmpty then
    (.error .invalidFields, [])
  else
    match callKw st send model "search_read" [domain]
        [("fields", .list (fields.map JVal.str))] with
    | (.ok v, tr) => (.ok (if truthy v then v else .list []), tr)
    | (.error e, tr) => (.error e, tr)

/-- Method `OdooJSONRPCClient.read_all_records` (domain defaults to `[]`). -/
def readAllRecords (st : ClientState) (send : Send) (model : String)
    (fields : List String) (domain : Option JVal) : ClientResult JVal :=
  if fields.isEmpty then
    (.error .invalidFields, [])
  else
    let d := domain.getD (.list [])
    match callKw st send model "search_read" [d]
        [("fields", .list (fields.map JVal.str))] with
    | (.ok v, tr) => (.ok (if truthy v then v else .list []), tr)
    | (.error e, tr) => (.error e, tr)

/-- Whether a response value is exactly the boolean `true`
(Python `result is True`). -/
def JVal.isTrue : JVal → Bool
  | .bool true => true
  | _ => false

/-- Method `OdooJSONRPCClient.write_record` (`return result is True`). -/
def writeRecord (st : ClientState) (send : Send) (model : String)
    (recordId : Int) (values : Obj) : ClientResult Bool :=
  match callKw st send model "write" [.list [.int recordId], .obj values] [] with
  | (.ok v, tr) => (.ok v.isTrue, tr)
  | (.error e, tr) => (.error e, tr)

/-- Prefix test on character lists. -/
def charsPrefix : List Char → List Char → Bool
  | _, [] => true
  | [], _ :: _ => false
  | c :: cs, d :: ds => c == d && charsPrefix cs ds

/-- Substring test on character lists. -/
def charsContain (s pat : List Char) : Bool :=
  match s with
  | [] => charsPrefix [] pat
  | c :: cs => charsPrefix (c :: cs) pat || charsContain cs pat

/-- Substring test, Python `sub in s`. -/
def containsSub (s sub : String) : Bool :=
  charsContain s.toList sub.toList

/-- The marker `_make_request` looks for in error envelopes. -/
def sessionExpiredMarker : String := "Session expired"

/-- Extraction `error_data.get('message', 'Unknown error')`.  The
protocol only ever puts strings under `message`; a non-string value is
not modelled beyond falling back to the default. -/
def errMsgOf (errData : JVal) : String :=
  match getKey errData "message" with
  | some (.str s) => s
  | _ => "Unknown error"

/-- Extraction `error_data.get('data', {})`. -/
def errDataOf (errData : JVal) : JVal :=
  (getKey errData "data").getD (.obj [])

/-- Whether an envelope carries an error whose message or stringified
debug payload contains "Session expired" (`_make_request`). -/
def sessionExpired (envelope : JVal) : Bool :=
  match getKey envelope "error" with
  | some ed =>
    containsSub (errMsgOf ed) sessionExpiredMarker ||
      containsSub (pyStr (errDataOf ed)) sessionExpiredMarker
  | none => false

/-- What the wire and the session layer supply to one `_make_request`
invocation: the decoded envelope of the first attempt, the outcome of
`self.authenticate()` should it be invoked (`ok true`/`ok false` for a
returned boolean, `error` for a raised exception — the real
`authenticate` returns `True` or raises), and the decoded envelope of
the retried attempt should it happen. -/
structure Wire where
  first : JVal
  authOutcome : Except ClientError Bool
  second : JVal

/-- How many transport sends and how many `authenticate()` calls one
`_make_request` invocation performed. -/
structure ReqTrace where
  sends : Nat
  auths : Nat
deriving DecidableEq

/-- Method `OdooJSONRPCClient._make_request`, from decoding the response
envelope onward: error detection, the single re-authenticate-and-retry
cycle on session expiry, and extraction of the `result` field (defaulted
to the empty mapping). -/
def makeRequest (w : Wire) : Except ClientError JVal × ReqTrace :=
  match getKey w.first "error" with
  | none => (.ok ((getKey w.first "result").getD (.obj [])), ⟨1, 0⟩)
  | some ed =>
    let msg := errMsgOf ed
    let dbg := errDataOf ed
    if containsSub msg sessionExpiredMarker ||
        containsSub (pyStr dbg) sessionExpiredMarker then
      match w.authOutcome with
      | .ok true =>
        match getKey w.second "error" with
        | some ed2 =>
          (.error (.remoteAfterReauth (errMsgOf ed2) (pyStr (errDataOf ed2))), ⟨2, 1⟩)
        | none => (.ok ((getKey w.second "result").getD (.obj [])), ⟨2, 1⟩)
      | .ok false => (.error (.reauthFailed msg), ⟨1, 1⟩)
      | .error e => (.error e, ⟨1, 1⟩)
    else
      (.error (.remote msg (pyStr dbg)), ⟨1, 0⟩)

/-! ## Bulk update (`update_data.py`) -/

/-- Comprehension `{k: v for k, v in update.items() if k != 'id'}`. -/
def nonIdFields (u : Obj) : Obj :=
  u.filter (fun kv => kv.1 != "id")

/-- Function `normalize_updates`: for the `stock.move` model, an update
carrying a `quantity` field gets the same value mirrored onto
`product_uom_qty`; all other updates pass through unchanged. -/
def normalizeUpdates (updates : List Obj) (model : String) : List Obj :=
  updates.map (fun u =>
    if model == "stock.move" then
      match objGet (nonIdFields u) "quantity" with
      | some q => setItem u "product_uom_qty" q
      | none => u
    else u)

/-- Grouping key of a field-update mapping:
`json.dumps(field_updates, sort_keys=True)`. -/
def entryKey (fu : Obj) : String :=
  dumps (canon (.obj fu))

/-- One entry of the `value_groups` dict: grouping key, the field values
of the first update that created the group, and the ids accumulated so
far (in arrival order). -/
structure Group where
  key : String
  values : Obj
  ids : List JVal

/-- Insertion into `value_groups`: append the id to the existing group
with this key (keeping its position and its stored values), or append a
fresh group at the end. -/
def addToGroups : List Group → String → Obj → JVal → List Group
  | [], k, fu, rid => [⟨k, fu, [rid]⟩]
  | g :: gs, k, fu, rid =>
    if g.key == k then { g with ids := g.ids ++ [rid] } :: gs
    else g :: addToGroups gs k fu rid

/-- Per-entry failures recorded by `bulk_update_records` (the source
appends formatted message strings; here one tag per append site). -/
inductive BulkErr where
  /-- Message `f"Missing 'id' in update: ..."`. -/
  | missingId (u : Obj) : BulkErr
  /-- Message `f"No fields to update for record ..."`. -/
  | noFields (rid : JVal) : BulkErr
  /-- Message `f"Update returned False for IDs: ..."`. -/
  | writeFalse (ids : List JVal) : BulkErr
  /-- Message `f"Error updating IDs ...: ..."`. -/
  | writeExc (ids : List JVal) (msg : String) : BulkErr

/-- State of the grouping loop of `bulk_update_records`. -/
structure GatherState where
  groups : List Group
  failed : Nat
  errors : List BulkErr

/-- One iteration of the grouping loop: reject an entry whose `id` is
missing or falsy, reject an entry with no non-id fields, otherwise file
it into `value_groups` under its serialization key. -/
def gatherStep (s : GatherState) (u : Obj) : GatherState :=
  let rid := (objGet u "id").getD .null
  if !truthy rid then
    { s with failed := s.failed + 1, errors := s.errors ++ [.missingId u] }
  else
    let fu := nonIdFields u
    if fu.isEmpty then
      { s with failed := s.failed + 1, errors := s.errors ++ [.noFields rid] }
    else
      { s with groups := addToGroups s.groups (entryKey fu) fu rid }

/-- Result record of `bulk_update_records`, plus the trace of `write`
calls it issued (ids and values of each `client.call_kw(model, "write",
[ids, values], {})` invocation, in order). -/
structure BulkResult where
  success : Bool
  updated : Nat
  failed : Nat
  errors : List BulkErr
  message : Option String
  calls : List (List JVal × Obj)

/-- Outcome of one server-side `write` call: a raised exception or a
returned value. -/
abbrev WriteOracle := List JVal → Obj → Except String JVal

/-- State of the write loop of `bulk_update_records`. -/
structure WriteState where
  updated : Nat
  failed : Nat
  errors : List BulkErr
  calls : List (List JVal × Obj)

/-- One iteration of the write loop: issue the group's write call; a
result of exactly `True` counts all the group's ids as updated, any
other result or an exception counts them all as failed. -/
def writeStep (wo : WriteOracle) (s : WriteState) (g : Group) : WriteState :=
  let s := { s with calls := s.calls ++ [(g.ids, g.values)] }
  match wo g.ids g.values with
  | .ok v =>
    if v.isTrue then { s with updated := s.updated + g.ids.length }
    else { s with failed := s.failed + g.ids.length,
                  errors := s.errors ++ [.writeFalse g.ids] }
  | .error m =>
    { s with failed := s.failed + g.ids.length,
             errors := s.errors ++ [.writeExc g.ids m] }

/-- Core of `bulk_update_records` (the grouping loop followed by the
write loop), operating on the updates as they reach line 88 of
`update_data.py`, i.e. already normalized. -/
def bulkUpdateCore (wo : WriteOracle) (updates : List Obj) : BulkResult :=
  let gs := updates.foldl gatherStep ⟨[], 0, []⟩
  let ws := gs.groups.foldl (writeStep wo) ⟨0, 0, [], []⟩
  { success := gs.failed + ws.failed == 0
    updated := ws.updated
    failed := gs.failed + ws.failed
    errors := gs.errors ++ ws.errors
    message := none
    calls := ws.calls }

/-- Function `bulk_update_records`: early return on an empty update
list, otherwise normalize then group-and-write. -/
def bulkUpdateRecords (wo : WriteOracle) (model : String)
    (updates : List Obj) : BulkResult :=
  if updates.isEmpty then
    ⟨false, 0, 0, [], some "No records to update", []⟩
  else
    bulkUpdateCore wo (normalizeUpdates updates model)

/-- Grouping key of an update entry. -/
def keyOf (u : Obj) : String := entryKey (nonIdFields u)

/-- The id of an update entry (`update.get('id')`, `None` when absent). -/
def idOf (u : Obj) : JVal := (objGet u "id").getD .null

/-- Specification-side grouping, following the words of the spec: one
group per distinct serialization key, groups in first-seen key order,
each group covering every id whose entry shares the key, with the field
values of the first such entry. -/
def specGroups : List Obj → List Group
  | [] => []
  | u :: rest =>
    ⟨keyOf u, nonIdFields u,
      ((u :: rest).filter (fun v => keyOf v == keyOf u)).map idOf⟩ ::
      specGroups (rest.filter (fun v => keyOf v != keyOf u))
termination_by us => us.length
decreasing_by
  simp only [List.length_cons]
  exact Nat.lt_succ_of_le (List.length_filter_le _ _)

/-- The grouping loop's effect on `value_groups` alone, as a fold. -/
def groupsFold (gs : List Group) (us : List Obj) : List Group :=
  us.foldl (fun acc u => addToGroups acc (keyOf u) (nonIdFields u) (idOf u)) gs

/-- First occurrence of each element, in order (the distinct grouping
keys in first-seen order). -/
def dedupKeys : List String → List String
  | [] => []
  | k :: ks => k :: dedupKeys (ks.filter (fun k2 => k2 != k))
termination_by ks => ks.length
decreasing_by
  simp only [List.length_cons]
  exact Nat.lt_succ_of_le (List.length_filter_le _ _)

/-! ## Post-write verification (`update_picking_status.py`) -/

/-- Lookup `record.get(field)` on a fetched record, with Python's `None`
(also the decoding of JSON `null`) for an absent key.  Fetched records
are objects under the protocol. -/
def recGet (r : JVal) (field : String) : JVal :=
  match r with
  | .obj kvs => (objGet kvs field).getD .null
  | _ => .null

/-- The per-field comparison of `verify_picking_updates`: a boolean
expected value is checked against the truthiness of the actual value
(`bool(None)` being `False`); otherwise an actual value that is a list
with at least one element is checked by its first element under Python
equality; otherwise plain Python equality. -/
def fieldMatches (expected actual : JVal) : Bool :=
  match expected with
  | .bool b => truthy actual == b
  | _ =>
    match actual with
    | .list (x :: _) => pyEq x expected
    | _ => pyEq actual expected

/-- The actual value reported in a mismatch message: the coerced boolean
in the boolean branch, the first element in the list branch, the raw
value otherwise. -/
def shownActual (expected actual : JVal) : JVal :=
  match expected with
  | .bool _ => .bool (truthy actual)
  | _ =>
    match actual with
    | .list (x :: _) => x
    | _ => actual

/-- Failures recorded by `verify_picking_updates` (formatted message
strings in the source; here one tag per append site). -/
inductive VerifyErr where
  /-- Message `f"Picking ... not found"`. -/
  | recNotFound (pid : Int) : VerifyErr
  /-- Message `f"Picking ...: field = actual (expected ...)"`. -/
  | mismatch (pid : Int) (field : String) (shown : JVal) (expected : JVal) : VerifyErr
  /-- Message `f"Verification error: ..."` (caught exception). -/
  | exc (e : ClientError) : VerifyErr

/-- Result record of `verify_picking_updates`. -/
structure VerifyResult where
  verified : Nat
  failed : Nat
  errors : List VerifyErr

/-- The mismatch messages one record contributes, one per expected field
that fails its comparison, in field order. -/
def fieldErrors (pid : Int) (r : JVal) (expectedFields : Obj) : List VerifyErr :=
  expectedFields.foldl (fun acc kv =>
    if fieldMatches kv.2 (recGet r kv.1) then acc
    else acc ++ [.mismatch pid kv.1 (shownActual kv.2 (recGet r kv.1)) kv.2]) []

/-- Whether every expected field of one record matches (`all_match`). -/
def recordMatches (r : JVal) (expectedFields : Obj) : Bool :=
  expectedFields.all (fun kv => fieldMatches kv.2 (recGet r kv.1))

/-- The dict comprehension `{record['id']: record for record in records}`
followed by `.get(picking_id)`: the last fetched record whose id equals
the picking id, if any. -/
def recordsMapGet (records : List JVal) (pid : Int) : Option JVal :=
  records.foldl (fun acc r => if pyEq (recGet r "id") (.int pid) then some r else acc) none

/-- The verification loop body for one picking id. -/
def verifyStep (records : List JVal) (expectedFields : Obj)
    (s : VerifyResult) (pid : Int) : VerifyResult :=
  match recordsMapGet records pid with
  | none =>
    { s with failed := s.failed + 1, errors := s.errors ++ [.recNotFound pid] }
  | some r =>
    if recordMatches r expectedFields then
      { s with verified := s.verified + 1 }
    else
      { s with failed := s.failed + 1,
               errors := s.errors ++ fieldErrors pid r expectedFields }

/-- The domain `[('id', 'in', picking_ids)]` as a JSON payload. -/
def verifyDomain (pickingIds : List Int) : JVal :=
  .list [.list [.str "id", .str "in", .list (pickingIds.map JVal.int)]]

/-- Function `verify_picking_updates`: fetch the just-written ids with a
single `search_read` over the expected fields, then compare each record
field by field.  The source decodes `search_read`'s JSON into a list of
records; a non-list success is outside the protocol and is treated as an
empty list here. -/
def verifyPickingUpdates (st : ClientState) (send : Send)
    (pickingIds : List Int) (expectedFields : Obj) : VerifyResult :=
  if pickingIds.isEmpty then ⟨0, 0, []⟩
  else
    let fieldsToRead := expectedFields.map (·.1)
    match searchRead st send "stock.picking" (verifyDomain pickingIds) fieldsToRead with
    | (.error e, _) => ⟨0, 0, [.exc e]⟩
    | (.ok v, _) =>
      let records := match v with
        | .list rs => rs
        | _ => []
      pickingIds.foldl (verifyStep records expectedFields) ⟨0, 0, []⟩

/-- Modelled from the spec: the per-field comparison rule exactly as the
specification words it — boolean expected values by truthiness,
relationship values returned as a two-element `[id, label]` pair by
their id component, and every other field by direct equality. -/
def fieldMatchesClaim (expected actual : JVal) : Bool :=
  match expected with
  | .bool b => truthy actual == b
  | _ =>
    match actual with
    | .list [.int i, .str _] => pyEq (.int i) expected
    | _ => pyEq actual expected

/-! ## Concrete fixtures used by witnesses and counterexamples -/

/-- An authenticated client state (uid 2). -/
def cst : ClientState := ⟨"db", "admin", "admin", some (.int 2), none⟩

/-- A fresh, unauthenticated client state. -/
def cst0 : ClientState := ⟨"db", "admin", "admin", none, none⟩

/-- A server answering every request with the integer 1. -/
def csendInt1 : Send := fun _ _ => .ok (.int 1)

/-- A server answering every request with the string "true". -/
def csendStrTrue : Send := fun _ _ => .ok (.str "true")

/-- A server whose fetched picking has `delivered` null. -/
def c6send1 : Send := fun _ _ => .ok (.list [.obj [("id", .int 9), ("delivered", .null)]])

/-- A server whose fetched picking has `status_id = [2, "Shipped"]`. -/
def c6send2 : Send := fun _ _ =>
  .ok (.list [.obj [("id", .int 9), ("status_id", .list [.int 2, .str "Shipped"])]])

/-- A server whose fetched picking has a three-element list under
`move_ids` (a one-to-many relationship value). -/
def c6send3 : Send := fun _ _ =>
  .ok (.list [.obj [("id", .int 4), ("move_ids", .list [.int 5, .int 6, .int 7])]])

/-- A server that authenticates every login with uid 0. -/
def csendUid0 : Send := fun _ _ => .ok (.obj [("uid", .int 0)])

/-- A server whose read of record 7 returns one record. -/
def csendRead7 : Send := fun _ _ => .ok (.list [.obj [("id", .int 7), ("name", .str "X")]])

/-- A server whose read returns the empty record list. -/
def csendReadEmpty : Send := fun _ _ => .ok (.list [])

/-- The bulk-update example of the spec: three stock moves, two sharing a
quantity. -/
def c5updates : List Obj :=
  [[("id", .int 1), ("quantity", .int 5)],
   [("id", .int 2), ("quantity", .int 5)],
   [("id", .int 3), ("quantity", .int 9)]]

/-- A write oracle whose every call returns exactly `True`. -/
def c5wo : WriteOracle := fun _ _ => .ok (.bool true)

/-- An entry the grouping loop rejects without calling the server: a
missing or falsy id, or no non-id fields. -/
def invalidEntry (u : Obj) : Bool :=
  !truthy ((objGet u "id").getD .null) || (nonIdFields u).isEmpty

/-- Whether a group's write call returns exactly `True`. -/
def groupOk (wo : WriteOracle) (g : Group) : Bool :=
  match wo g.ids g.values with
  | .ok v => v.isTrue
  | .error _ => false

/-- A wire for the witness: a session-expired first envelope, successful
re-authentication, and a successful second envelope. -/
def c2wire : Wire :=
  ⟨.obj [("error", .obj [("message", .str "Odoo Server Error: Session expired")])],
   .ok true,
   .obj [("result", .int 42)]⟩

/-- The in-place update one filed entry applies to an existing group. -/
def updG (k : String) (rid : JVal) (g : Group) : Group :=
  if g.key == k then { g with ids := g.ids ++ [rid] } else g

/-- The ids every entry of a batch contributes to the group holding its
key. -/
def updAll (us : List Obj) (g : Group) : Group :=
  { g with ids := g.ids ++ ((us.filter (fun v => keyOf v == g.key)).map idOf) }

/-- A write oracle whose every call raises. -/
def c4wo : WriteOracle := fun _ _ => .error "boom"

/-- A bulk-update batch with two entries sharing their field values. -/
def c4updates : List Obj :=
  [[("id", .int 1), ("a", .int 5)], [("id", .int 2), ("a", .int 5)],
   [("id", .int 3), ("b", .int 1)]]

/-! ## Theorems -/


/-- Helper: a response is `is True` exactly when it is the boolean
`true`. -/
theorem isTrue_iff (v : JVal) : v.isTrue = true ↔ v = .bool true := by
  cases v with
  | bool b => cases b <;> simp [JVal.isTrue]
  | _ => simp [JVal.isTrue]

/-- C1: `write` returns true if and only if the server's response to the
underlying call is exactly the boolean `true`; in particular the truthy
responses `1` and `"true"` make it return false. -/
theorem write_true_iff_response_exact_true (st : ClientState) (send : Send)
    (model : String) (recordId : Int) (values : Obj) (v : JVal)
    (hauth : truthyUid st = true)
    (hresp : send callKwEndpoint
      (callKwParams model "write" [.list [.int recordId], .obj values] []) = .ok v) :
    ((writeRecord st send model recordId values).1 = .ok true ↔ v = .bool true)
    ∧ (v = .int 1 → (writeRecord st send model recordId values).1 = .ok false)
    ∧ (v = .str "true" → (writeRecord st send model recordId values).1 = .ok false) := by
  have h : (writeRecord st send model recordId values).1 = .ok v.isTrue := by
    simp [writeRecord, callKw, hauth, hresp]
  refine ⟨?_, ?_, ?_⟩
  · rw [h]
    constructor
    · intro he
      exact (isTrue_iff v).mp (Except.ok.inj he)
    · intro hv
      subst hv
      rfl
  · intro hv; subst hv; rw [h]; rfl
  · intro hv; subst hv; rw [h]; rfl

/-- Witness for C1: against a server answering `1`, `write` returns
false (and against `"true"` likewise). -/
theorem write_true_iff_response_exact_true_witness :
    (writeRecord cst csendInt1 "stock.picking" 7 []).1 = .ok false
    ∧ (writeRecord cst csendStrTrue "stock.picking" 7 []).1 = .ok false :=
  ⟨(write_true_iff_response_exact_true cst csendInt1 "stock.picking" 7 [] (.int 1)
      rfl rfl).2.1 rfl,
   (write_true_iff_response_exact_true cst csendStrTrue "stock.picking" 7 [] (.str "true")
      rfl rfl).2.2 rfl⟩

/-- C3: `read`, `search_read` and `read_all` called with an empty field
list fail with the invalid-argument error and hand nothing to the
transport layer, whatever the model, id and domain. -/
theorem empty_fields_fail_before_network (st : ClientState) (send : Send)
    (model : String) (recordId : Int) (domain : JVal) (odomain : Option JVal) :
    readRecord st send model recordId [] = (.error .invalidFields, [])
    ∧ searchRead st send model domain [] = (.error .invalidFields, [])
    ∧ readAllRecords st send model [] odomain = (.error .invalidFields, []) := by
  refine ⟨?_, ?_, ?_⟩ <;> simp [readRecord, searchRead, readAllRecords]

/-- C7: `call_kw` raises the not-authenticated error without a session;
with a session it forwards exactly one request whose params carry the
hard-coded empty `context` — the method has no context parameter, so a
caller-supplied context can never be forwarded. -/
theorem call_kw_context_hardcoded_empty (st : ClientState) (send : Send)
    (model method : String) (args : List JVal) (kwargs : Obj) :
    (truthyUid st = true →
      (callKw st send model method args kwargs).2 =
        [(callKwEndpoint, callKwParams model method args kwargs)]
      ∧ getKey (callKwParams model method args kwargs) "context" = some (.obj []))
    ∧ (truthyUid st = false →
      callKw st send model method args kwargs = (.error .notAuthenticated, [])) := by
  constructor
  · intro h
    refine ⟨by simp [callKw, h], rfl⟩
  · intro h
    simp [callKw, h]

/-- Witness for C7: the params of the `button_validate` call of
`validate_picking.py` carry the empty context, not the context mapping
the script tries to pass. -/
theorem call_kw_context_hardcoded_empty_witness :
    (callKw cst csendInt1 "stock.picking" "button_validate" [.list [.int 1]] []).2 =
      [(callKwEndpoint,
        callKwParams "stock.picking" "button_validate" [.list [.int 1]] [])]
    ∧ getKey (callKwParams "stock.picking" "button_validate" [.list [.int 1]] [])
        "context" = some (.obj []) :=
  (call_kw_context_hardcoded_empty cst csendInt1 "stock.picking" "button_validate"
    [.list [.int 1]] []).1 rfl

/-- C9: `read` with a non-empty whitelist sends exactly one request
whose params put the whitelist, in order, under `fields`; an empty
result list raises the not-found error, and otherwise the first record
is returned. -/
theorem read_record_request_and_result (st : ClientState) (send : Send)
    (model : String) (recordId : Int) (f : String) (fs : List String)
    (hauth : truthyUid st = true) :
    (readRecord st send model recordId (f :: fs)).2 =
      [(callKwEndpoint, callKwParams model "read" [.list [.int recordId]]
        [("fields", .list ((f :: fs).map JVal.str))])]
    ∧ (send callKwEndpoint (callKwParams model "read" [.list [.int recordId]]
        [("fields", .list ((f :: fs).map JVal.str))]) = .ok (.list []) →
      (readRecord st send model recordId (f :: fs)).1 = .error (.notFound model recordId))
    ∧ (∀ (r : JVal) (rs : List JVal),
      send callKwEndpoint (callKwParams model "read" [.list [.int recordId]]
        [("fields", .list ((f :: fs).map JVal.str))]) = .ok (.list (r :: rs)) →
      (readRecord st send model recordId (f :: fs)).1 = .ok r) := by
  have hc : callKw st send model "read" [.list [.int recordId]]
      [("fields", .list ((f :: fs).map JVal.str))] =
      (send callKwEndpoint (callKwParams model "read" [.list [.int recordId]]
        [("fields", .list ((f :: fs).map JVal.str))]),
       [(callKwEndpoint, callKwParams model "read" [.list [.int recordId]]
        [("fields", .list ((f :: fs).map JVal.str))])]) := by
    simp only [callKw, hauth, if_true]
  refine ⟨?_, ?_, ?_⟩
  · simp only [readRecord]
    rw [hc]
    cases h : send callKwEndpoint (callKwParams model "read" [.list [.int recordId]]
        [("fields", .list ((f :: fs).map JVal.str))]) with
    | ok v =>
      cases v with
      | list xs => cases xs <;> simp
      | _ => simp
    | error e => simp
  · intro h
    simp only [readRecord]
    rw [hc, h]
    simp
  · intro r rs h
    simp only [readRecord]
    rw [hc, h]
    simp

/-- Witness for C9: reading id 7 against a one-record server returns
that record; against an empty-list server it raises not-found. -/
theorem read_record_request_and_result_witness :
    (readRecord cst csendRead7 "stock.picking" 7 ["id", "name"]).1 =
      .ok (.obj [("id", .int 7), ("name", .str "X")])
    ∧ (readRecord cst csendReadEmpty "stock.picking" 7 ["id", "name"]).1 =
      .error (.notFound "stock.picking" 7) :=
  ⟨(read_record_request_and_result cst csendRead7 "stock.picking" 7 "id" ["name"]
      rfl).2.2 (.obj [("id", .int 7), ("name", .str "X")]) [] rfl,
   (read_record_request_and_result cst csendReadEmpty "stock.picking" 7 "id" ["name"]
      rfl).2.1 rfl⟩

/-- C10: an authentication response carrying uid 0 makes `authenticate`
report success and store uid 0, after which every `call_kw`, `read`,
`search_read` and `write` fails with the not-authenticated error,
because the session check tests the uid for falsiness. -/
theorem uid_zero_authenticates_then_locked_out (st : ClientState) (send : Send)
    (hresp : send authEndpoint (authParams st) = .ok (.obj [("uid", .int 0)])) :
    (authenticate st send).1 =
      .ok (true, { st with uid := some (.int 0), sessionId := none })
    ∧ (∀ (send2 : Send) (model method : String) (args : List JVal) (kwargs : Obj),
      callKw { st with uid := some (.int 0), sessionId := none } send2
        model method args kwargs = (.error .notAuthenticated, []))
    ∧ (∀ (send2 : Send) (model : String) (recordId : Int) (f : String) (fs : List String),
      readRecord { st with uid := some (.int 0), sessionId := none } send2
        model recordId (f :: fs) = (.error .notAuthenticated, []))
    ∧ (∀ (send2 : Send) (model : String) (domain : JVal) (f : String) (fs : List String),
      searchRead { st with uid := some (.int 0), sessionId := none } send2
        model domain (f :: fs) = (.error .notAuthenticated, []))
    ∧ (∀ (send2 : Send) (model : String) (recordId : Int) (values : Obj),
      writeRecord { st with uid := some (.int 0), sessionId := none } send2
        model recordId values = (.error .notAuthenticated, [])) := by
  refine ⟨?_, ?_, ?_, ?_, ?_⟩
  · simp [authenticate, hresp, truthy, getKey, objGet]
  · intro send2 model method args kwargs
    simp [callKw, truthyUid, truthy]
  · intro send2 model recordId f fs
    simp [readRecord, callKw, truthyUid, truthy]
  · intro send2 model domain f fs
    simp [searchRead, callKw, truthyUid, truthy]
  · intro send2 model recordId values
    simp [writeRecord, callKw, truthyUid, truthy]

/-- Witness for C10: concretely, after authenticating against the uid-0
server, a subsequent write fails as not authenticated. -/
theorem uid_zero_authenticates_then_locked_out_witness :
    (authenticate cst0 csendUid0).1 =
      .ok (true, { cst0 with uid := some (.int 0), sessionId := none })
    ∧ writeRecord { cst0 with uid := some (.int 0), sessionId := none } csendUid0
        "stock.picking" 7 [] = (.error .notAuthenticated, []) :=
  ⟨(uid_zero_authenticates_then_locked_out cst0 csendUid0 rfl).1,
   (uid_zero_authenticates_then_locked_out cst0 csendUid0 rfl).2.2.2.2
     csendUid0 "stock.picking" 7 []⟩

/-- C2: on an error envelope whose message or stringified debug payload
contains "Session expired", the transport re-authenticates exactly once
and re-sends the original request exactly once when re-authentication
returns true (returning the retry's result on success and raising the
after-re-auth error if the retry errors again); a failed
re-authentication — a falsy return or a raised authentication error —
fails the operation after a single authentication attempt and no
retry. -/
theorem session_expired_reauth_once_retry_once (w : Wire) (ed : JVal)
    (hed : getKey w.first "error" = some ed)
    (hexp : (containsSub (errMsgOf ed) sessionExpiredMarker ||
      containsSub (pyStr (errDataOf ed)) sessionExpiredMarker) = true) :
    (makeRequest w).2.auths = 1
    ∧ (makeRequest w).2.sends ≤ 2
    ∧ (w.authOutcome = .ok true →
        (makeRequest w).2 = ⟨2, 1⟩
        ∧ (getKey w.second "error" = none →
            (makeRequest w).1 = .ok ((getKey w.second "result").getD (.obj [])))
        ∧ (∀ ed2, getKey w.second "error" = some ed2 →
            (makeRequest w).1 =
              .error (.remoteAfterReauth (errMsgOf ed2) (pyStr (errDataOf ed2)))))
    ∧ (w.authOutcome = .ok false →
        makeRequest w = (.error (.reauthFailed (errMsgOf ed)), ⟨1, 1⟩))
    ∧ (∀ e, w.authOutcome = .error e → makeRequest w = (.error e, ⟨1, 1⟩)) := by
  have hm : makeRequest w = (match w.authOutcome with
      | .ok true =>
        (match getKey w.second "error" with
          | some ed2 =>
            (.error (.remoteAfterReauth (errMsgOf ed2) (pyStr (errDataOf ed2))), ⟨2, 1⟩)
          | none => (.ok ((getKey w.second "result").getD (.obj [])), ⟨2, 1⟩))
      | .ok false => (.error (.reauthFailed (errMsgOf ed)), ⟨1, 1⟩)
      | .error e => (.error e, ⟨1, 1⟩)) := by
    simp only [makeRequest]
    rw [hed]
    simp only [hexp, if_true]
  refine ⟨?_, ?_, ?_, ?_, ?_⟩
  · rw [hm]
    rcases w.authOutcome with e | b
    · rfl
    · cases b
      · rfl
      · rcases h2 : getKey w.second "error" with _ | ed2 <;> simp
  · rw [hm]
    rcases w.authOutcome with e | b
    · simp
    · cases b
      · simp
      · rcases h2 : getKey w.second "error" with _ | ed2 <;> simp
  · intro ha
    rw [hm, ha]
    refine ⟨?_, ?_, ?_⟩
    · rcases h2 : getKey w.second "error" with _ | ed2 <;> simp
    · intro h2
      rw [h2]
    · intro ed2 h2
      rw [h2]
  · intro ha
    rw [hm, ha]
  · intro e ha
    rw [hm, ha]

/-- Helper: dict lookup on a cons. -/
theorem objGet_cons (p : String × JVal) (r : Obj) (k : String) :
    objGet (p :: r) k = if p.1 == k then some p.2 else objGet r k := by
  unfold objGet
  rw [List.find?_cons]
  cases hp : p.1 == k <;> simp [hp]

/-- Helper: dict assignment in its two branches, phrased through
the lookup. -/
theorem setItem_eq (u : Obj) (k : String) (v : JVal) :
    setItem u k v =
      if (objGet u k).isSome then
        u.map (fun kv => if kv.1 == k then (k, v) else kv)
      else u ++ [(k, v)] := by
  unfold setItem objGet
  cases hf : List.find? (fun kv => kv.1 == k) u <;> simp [hf]

/-- Helper: replacing the key's pair in place makes the key hold the new
value, provided the key occurs. -/
theorem objGet_map_replace_self (r : Obj) (k : String) (v : JVal)
    (h : (objGet r k).isSome = true) :
    objGet (r.map (fun kv => if kv.1 == k then (k, v) else kv)) k = some v := by
  induction r with
  | nil => simp [objGet] at h
  | cons p r ih =>
    rw [objGet_cons] at h
    rw [List.map_cons, objGet_cons]
    cases hp : p.1 == k with
    | true => simp [hp]
    | false =>
      rw [hp] at h
      have h2 := ih (by simpa using h)
      simpa [hp] using h2

/-- Helper: appending the fresh pair makes the key hold the new value,
provided the key does not occur. -/
theorem objGet_append_self (r : Obj) (k : String) (v : JVal)
    (h : (objGet r k).isSome = false) :
    objGet (r ++ [(k, v)]) k = some v := by
  induction r with
  | nil => simp [objGet_cons, objGet]
  | cons p r ih =>
    rw [objGet_cons] at h
    rw [List.cons_append, objGet_cons]
    cases hp : p.1 == k with
    | true => rw [hp] at h; simp at h
    | false =>
      rw [hp] at h
      have h2 := ih (by simpa using h)
      simpa [hp] using h2

/-- Helper: replacing the assigned key's pair leaves other lookups
unchanged. -/
theorem objGet_map_replace_other (r : Obj) (k : String) (v : JVal) (k2 : String)
    (hne : k2 ≠ k) :
    objGet (r.map (fun kv => if kv.1 == k then (k, v) else kv)) k2 = objGet r k2 := by
  have hkk : (k == k2) = false := by
    simp only [beq_eq_false_iff_ne, ne_eq]
    exact fun h => hne h.symm
  induction r with
  | nil => simp
  | cons p r ih =>
    rw [List.map_cons, objGet_cons, objGet_cons]
    cases hp : p.1 == k with
    | true =>
      have h1 : p.1 = k := by simpa using hp
      have h2 : (p.1 == k2) = false := by
        rw [h1]
        exact hkk
      simpa [hp, hkk, h2] using ih
    | false =>
      cases hq : p.1 == k2 with
      | true => simp [hp, hq]
      | false => simpa [hp, hq] using ih

/-- Helper: appending the fresh pair leaves other lookups unchanged. -/
theorem objGet_append_other (r : Obj) (k : String) (v : JVal) (k2 : String)
    (hne : k2 ≠ k) :
    objGet (r ++ [(k, v)]) k2 = objGet r k2 := by
  have hkk : (k == k2) = false := by
    simp only [beq_eq_false_iff_ne, ne_eq]
    exact fun h => hne h.symm
  induction r with
  | nil => simp [objGet, hkk]
  | cons p r ih =>
    rw [List.cons_append, objGet_cons, objGet_cons]
    cases hp : p.1 == k2 <;> simp [hp, ih]

/-- Helper: a dict assignment makes the assigned key hold the assigned
value. -/
theorem objGet_setItem_self (u : Obj) (k : String) (v : JVal) :
    objGet (setItem u k v) k = some v := by
  rw [setItem_eq]
  by_cases h : (objGet u k).isSome
  · rw [if_pos h]
    exact objGet_map_replace_self u k v h
  · rw [if_neg h]
    exact objGet_append_self u k v (by simpa using h)

/-- Helper: a dict assignment leaves every other key's lookup
unchanged. -/
theorem objGet_setItem_other (u : Obj) (k : String) (v : JVal) (k2 : String)
    (hne : k2 ≠ k) : objGet (setItem u k v) k2 = objGet u k2 := by
  rw [setItem_eq]
  by_cases h : (objGet u k).isSome
  · rw [if_pos h]
    exact objGet_map_replace_other u k v k2 hne
  · rw [if_neg h]
    exact objGet_append_other u k v k2 hne

/-- C5: for the stock-movement model, an update carrying `quantity` has
the same value mirrored onto `product_uom_qty` before grouping (its
normalized entry keeps `quantity` and gains `product_uom_qty` with the
identical value); and on the spec's example exactly two write calls
occur, `[1, 2]` with quantity and mirror 5 and `[3]` with quantity and
mirror 9. -/
theorem stock_move_quantity_mirrored (updates : List Obj) (u : Obj) (q : JVal)
    (hu : u ∈ updates) (hq : objGet (nonIdFields u) "quantity" = some q) :
    (setItem u "product_uom_qty" q ∈ normalizeUpdates updates "stock.move"
      ∧ objGet (setItem u "product_uom_qty" q) "product_uom_qty" = some q
      ∧ objGet (setItem u "product_uom_qty" q) "quantity" = objGet u "quantity")
    ∧ ((bulkUpdateRecords c5wo "stock.move" c5updates).calls =
        [([.int 1, .int 2], [("quantity", .int 5), ("product_uom_qty", .int 5)]),
         ([.int 3], [("quantity", .int 9), ("product_uom_qty", .int 9)])]
      ∧ (bulkUpdateRecords c5wo "stock.move" c5updates).updated = 3
      ∧ (bulkUpdateRecords c5wo "stock.move" c5updates).failed = 0) := by
  refine ⟨⟨?_, objGet_setItem_self u "product_uom_qty" q,
    objGet_setItem_other u "product_uom_qty" q "quantity" (by decide)⟩,
    rfl, rfl, rfl⟩
  have he : (if ("stock.move" : String) == "stock.move" then
      match objGet (nonIdFields u) "quantity" with
      | some q2 => setItem u "product_uom_qty" q2
      | none => u
    else u) = setItem u "product_uom_qty" q := by
    simp [hq]
  exact he ▸ List.mem_map_of_mem _ hu

/-- Witness for C5: the first example entry is normalized to carry the
mirrored field, and the example pipeline issues the two claimed write
calls. -/
theorem stock_move_quantity_mirrored_witness :
    setItem [("id", .int 1), ("quantity", .int 5)] "product_uom_qty" (.int 5) ∈
      normalizeUpdates c5updates "stock.move"
    ∧ (bulkUpdateRecords c5wo "stock.move" c5updates).calls =
      [([.int 1, .int 2], [("quantity", .int 5), ("product_uom_qty", .int 5)]),
       ([.int 3], [("quantity", .int 9), ("product_uom_qty", .int 9)])] :=
  ⟨(stock_move_quantity_mirrored c5updates [("id", .int 1), ("quantity", .int 5)]
      (.int 5) (List.mem_cons_self _ _) rfl).1.1,
   (stock_move_quantity_mirrored c5updates [("id", .int 1), ("quantity", .int 5)]
      (.int 5) (List.mem_cons_self _ _) rfl).2.1⟩

/-- Helper: verification of a single fetched record reduces to the
per-field comparison loop. -/
theorem verify_single (st : ClientState) (send : Send) (pid : Int)
    (r : JVal) (f0 : String) (e0 : JVal) (rest : Obj)
    (hauth : truthyUid st = true)
    (hsend : ∀ p, send callKwEndpoint p = .ok (.list [r]))
    (hid : pyEq (recGet r "id") (.int pid) = true) :
    verifyPickingUpdates st send [pid] ((f0, e0) :: rest) =
      if recordMatches r ((f0, e0) :: rest) then ⟨1, 0, []⟩
      else ⟨0, 1, fieldErrors pid r ((f0, e0) :: rest)⟩ := by
  cases h : recordMatches r ((f0, e0) :: rest) <;>
    simp [verifyPickingUpdates, searchRead, callKw, hauth, hsend, truthy,
      recordsMapGet, verifyStep, hid, h]

/-- C6 (amended): post-write verification fetches the ids with one
`search_read` and compares field by field — a boolean expected value
against the truthiness of the actual value (missing/null counting as
false, and a failure reports the coerced boolean as the actual value);
for a non-boolean expected value, an actual value that is any non-empty
sequence is compared by its first element; every other field by direct
equality — a record verifying only if every expected field matches.  In
particular expected delivered true against fetched null reports failure
with actual value false, and expected status 2 against fetched
`[2, "Shipped"]` reports success. -/
theorem verify_type_aware_rules (st : ClientState) (send : Send) (pid : Int)
    (r : JVal) (f0 : String) (e0 : JVal) (rest : Obj)
    (hauth : truthyUid st = true)
    (hsend : ∀ p, send callKwEndpoint p = .ok (.list [r]))
    (hid : pyEq (recGet r "id") (.int pid) = true) :
    ((verifyPickingUpdates st send [pid] ((f0, e0) :: rest)).verified = 1 ↔
      ((f0, e0) :: rest).all (fun kv => fieldMatches kv.2 (recGet r kv.1)) = true)
    ∧ (∀ b, rest = [] → e0 = .bool b →
        ((verifyPickingUpdates st send [pid] ((f0, e0) :: rest)).verified = 1 ↔
          truthy (recGet r f0) = b))
    ∧ (∀ x xs, rest = [] → (∀ b, e0 ≠ .bool b) →
        recGet r f0 = .list (x :: xs) →
        ((verifyPickingUpdates st send [pid] ((f0, e0) :: rest)).verified = 1 ↔
          pyEq x e0 = true))
    ∧ (rest = [] → (∀ b, e0 ≠ .bool b) →
        (∀ x xs, recGet r f0 ≠ .list (x :: xs)) →
        ((verifyPickingUpdates st send [pid] ((f0, e0) :: rest)).verified = 1 ↔
          pyEq (recGet r f0) e0 = true))
    ∧ (∀ b, rest = [] → e0 = .bool b → truthy (recGet r f0) ≠ b →
        (verifyPickingUpdates st send [pid] ((f0, e0) :: rest)).errors =
          [.mismatch pid f0 (.bool (truthy (recGet r f0))) (.bool b)])
    ∧ verifyPickingUpdates cst c6send1 [9] [("delivered", .bool true)] =
        ⟨0, 1, [.mismatch 9 "delivered" (.bool false) (.bool true)]⟩
    ∧ verifyPickingUpdates cst c6send2 [9] [("status_id", .int 2)] = ⟨1, 0, []⟩ := by
  have hv := verify_single st send pid r f0 e0 rest hauth hsend hid
  refine ⟨?_, ?_, ?_, ?_, ?_, rfl, rfl⟩
  · rw [hv]
    cases h : recordMatches r ((f0, e0) :: rest) with
    | true =>
      have h2 := h
      simp only [recordMatches] at h2
      simp [h2]
    | false =>
      have h2 := h
      simp only [recordMatches] at h2
      simp [h2]
  · intro b hr he
    subst hr
    subst he
    rw [hv]
    have hrm : recordMatches r [(f0, .bool b)] = (truthy (recGet r f0) == b) := by
      simp [recordMatches, fieldMatches]
    rw [hrm]
    cases hc : truthy (recGet r f0) == b with
    | true =>
      have hb : truthy (recGet r f0) = b := by simpa using hc
      simp [hb]
    | false =>
      simp only [Bool.false_eq_true, if_false]
      have hb : ¬ truthy (recGet r f0) = b := by simpa using hc
      simp [hb]
  · intro x xs hr hb ha
    subst hr
    rw [hv]
    have hfm : fieldMatches e0 (recGet r f0) = pyEq x e0 := by
      cases e0 with
      | bool b => exact absurd rfl (hb b)
      | null => rw [ha]; rfl
      | int n => rw [ha]; rfl
      | str s => rw [ha]; rfl
      | list ys => rw [ha]; rfl
      | obj kvs => rw [ha]; rfl
    have hrm : recordMatches r [(f0, e0)] = pyEq x e0 := by
      simp [recordMatches, hfm]
    rw [hrm]
    cases hc : pyEq x e0 <;> simp [hc]
  · intro hr hb ha
    subst hr
    rw [hv]
    have hfm : fieldMatches e0 (recGet r f0) = pyEq (recGet r f0) e0 := by
      cases e0 with
      | bool b => exact absurd rfl (hb b)
      | _ =>
        cases hrg : recGet r f0 with
        | list ys =>
          cases ys with
          | nil => rfl
          | cons x xs2 => exact absurd hrg (ha x xs2)
        | _ => rfl
    have hrm : recordMatches r [(f0, e0)] = pyEq (recGet r f0) e0 := by
      simp [recordMatches, hfm]
    rw [hrm]
    cases hc : pyEq (recGet r f0) e0 <;> simp [hc]
  · intro b hr he hne
    subst hr
    subst he
    rw [hv]
    have hfm : fieldMatches (.bool b) (recGet r f0) = false := by
      simp only [fieldMatches, beq_eq_false_iff_ne, ne_eq]
      exact hne
    have hrm : recordMatches r [(f0, .bool b)] = false := by
      simp [recordMatches, hfm]
    rw [hrm]
    simp [fieldErrors, hfm, shownActual]

/-- Witness for C6's amended theorem: the delivered-null spec example,
reached through the theorem. -/
theorem verify_type_aware_rules_witness :
    (verifyPickingUpdates cst c6send1 [9]
        [("delivered", .bool true)]).verified = 1 ↔
      truthy (recGet (.obj [("id", .int 9), ("delivered", .null)]) "delivered") = true :=
  ((verify_type_aware_rules cst c6send1 9
      (.obj [("id", .int 9), ("delivered", .null)])
      "delivered" (.bool true) [] rfl (fun _ => rfl) rfl).2.1) true rfl rfl

/-- Helper: the grouping loop counts exactly the invalid entries as
failed. -/
theorem gather_failed (us : List Obj) (s : GatherState) :
    (us.foldl gatherStep s).failed = s.failed + (us.filter invalidEntry).length := by
  induction us generalizing s with
  | nil => simp
  | cons u rest ih =>
    rw [List.foldl_cons, ih]
    cases h1 : truthy ((objGet u "id").getD .null) with
    | false => simp [gatherStep, invalidEntry, h1, Nat.add_assoc, Nat.add_comm 1]
    | true =>
      cases h2 : (nonIdFields u).isEmpty with
      | true => simp [gatherStep, invalidEntry, h1, h2, Nat.add_assoc, Nat.add_comm 1]
      | false => simp [gatherStep, invalidEntry, h1, h2]

/-- Helper: filing an entry preserves the truthiness of every id already
grouped, and the new id when it is truthy. -/
theorem addToGroups_ids_truthy (gs : List Group) (k : String) (fu : Obj) (rid : JVal)
    (hgs : ∀ g ∈ gs, ∀ x ∈ g.ids, truthy x = true) (hrid : truthy rid = true) :
    ∀ g ∈ addToGroups gs k fu rid, ∀ x ∈ g.ids, truthy x = true := by
  induction gs with
  | nil =>
    intro g hg x hx
    simp [addToGroups] at hg
    subst hg
    simp at hx
    subst hx
    exact hrid
  | cons g0 gs ih =>
    intro g hg x hx
    rw [addToGroups] at hg
    by_cases hk : g0.key == k
    · rw [if_pos hk] at hg
      rcases List.mem_cons.mp hg with hg | hg
      · subst hg
        simp at hx
        rcases hx with hx | hx
        · exact hgs g0 (List.mem_cons_self _ _) x hx
        · subst hx; exact hrid
      · exact hgs g (List.mem_cons_of_mem _ hg) x hx
    · rw [if_neg hk] at hg
      rcases List.mem_cons.mp hg with hg | hg
      · subst hg
        exact hgs g (List.mem_cons_self _ _) x hx
      · exact ih (fun g2 hg2 => hgs g2 (List.mem_cons_of_mem _ hg2)) g hg x hx

/-- Helper: every id filed by the grouping loop is truthy (entries with
a missing or falsy id never reach a group). -/
theorem gather_ids_truthy (us : List Obj) (s : GatherState)
    (hs : ∀ g ∈ s.groups, ∀ x ∈ g.ids, truthy x = true) :
    ∀ g ∈ (us.foldl gatherStep s).groups, ∀ x ∈ g.ids, truthy x = true := by
  induction us generalizing s with
  | nil => simpa using hs
  | cons u rest ih =>
    rw [List.foldl_cons]
    apply ih
    cases h1 : truthy ((objGet u "id").getD .null) with
    | false => simpa [gatherStep, h1] using hs
    | true =>
      cases h2 : (nonIdFields u).isEmpty with
      | true => simpa [gatherStep, h1, h2] using hs
      | false =>
        simp only [gatherStep, h1, h2]
        simpa using addToGroups_ids_truthy s.groups _ _ _ hs h1

/-- Helper: the write loop calls every group once, in order, and counts
ids of exactly-true groups as updated and all other groups' ids as
failed. -/
theorem write_fold (wo : WriteOracle) (gs : List Group) (s : WriteState) :
    (gs.foldl (writeStep wo) s).calls = s.calls ++ gs.map (fun g => (g.ids, g.values))
    ∧ (gs.foldl (writeStep wo) s).updated =
      s.updated + ((gs.filter (groupOk wo)).map (fun g => g.ids.length)).sum
    ∧ (gs.foldl (writeStep wo) s).failed =
      s.failed + ((gs.filter (fun g => !groupOk wo g)).map (fun g => g.ids.length)).sum := by
  induction gs generalizing s with
  | nil => simp
  | cons g rest ih =>
    rw [List.foldl_cons]
    rcases ih (writeStep wo s g) with ⟨ihc, ihu, ihf⟩
    refine ⟨?_, ?_, ?_⟩
    · rw [ihc]
      cases hw : wo g.ids g.values with
      | ok v => cases hv : v.isTrue <;> simp [writeStep, hw, hv]
      | error m => simp [writeStep, hw]
    · rw [ihu]
      cases hw : wo g.ids g.values with
      | ok v =>
        cases hv : v.isTrue <;>
          simp [writeStep, hw, hv, groupOk, Nat.add_assoc]
      | error m => simp [writeStep, hw, groupOk]
    · rw [ihf]
      cases hw : wo g.ids g.values with
      | ok v =>
        cases hv : v.isTrue <;>
          simp [writeStep, hw, hv, groupOk, Nat.add_assoc]
      | error m => simp [writeStep, hw, groupOk, Nat.add_assoc]

/-- C8: bulk update issues one write call per gathered group no matter
how earlier groups fare (the call list does not depend on the write
outcomes, so one bad group never blocks the rest); ids of groups whose
write raises or returns non-true are all counted failed, ids of
exactly-true groups are counted updated; entries with a missing or
falsy id (or no fields) are counted failed, and no such entry's id ever
reaches a group or a write call. -/
theorem bulk_partial_failure_semantics (wo : WriteOracle) (updates : List Obj) :
    (bulkUpdateCore wo updates).calls =
      ((updates.foldl gatherStep ⟨[], 0, []⟩).groups).map (fun g => (g.ids, g.values))
    ∧ (∀ wo2, (bulkUpdateCore wo2 updates).calls = (bulkUpdateCore wo updates).calls)
    ∧ (bulkUpdateCore wo updates).updated =
      ((((updates.foldl gatherStep ⟨[], 0, []⟩).groups).filter (groupOk wo)).map
        (fun g => g.ids.length)).sum
    ∧ (bulkUpdateCore wo updates).failed =
      (updates.filter invalidEntry).length +
        ((((updates.foldl gatherStep ⟨[], 0, []⟩).groups).filter
          (fun g => !groupOk wo g)).map (fun g => g.ids.length)).sum
    ∧ (∀ g ∈ (updates.foldl gatherStep ⟨[], 0, []⟩).groups, ∀ x ∈ g.ids,
        truthy x = true) := by
  have hw := write_fold wo ((updates.foldl gatherStep ⟨[], 0, []⟩).groups) ⟨0, 0, [], []⟩
  have hwc : ∀ wo2 : WriteOracle,
      (bulkUpdateCore wo2 updates).calls =
        ((updates.foldl gatherStep ⟨[], 0, []⟩).groups).map (fun g => (g.ids, g.values)) := by
    intro wo2
    have h2 := write_fold wo2 ((updates.foldl gatherStep ⟨[], 0, []⟩).groups) ⟨0, 0, [], []⟩
    simpa [bulkUpdateCore] using h2.1
  refine ⟨hwc wo, ?_, ?_, ?_, ?_⟩
  · intro wo2
    rw [hwc wo2, hwc wo]
  · simpa [bulkUpdateCore] using hw.2.1
  · have hg := gather_failed updates ⟨[], 0, []⟩
    have := hw.2.2
    simp only [bulkUpdateCore]
    rw [this, hg]
    simp
  · exact gather_ids_truthy updates ⟨[], 0, []⟩ (by simp)

/-- Counterexample for C6 as stated: with expected value 5 and a fetched
three-element list `[5, 6, 7]` (not an `[id, label]` pair), the spec's
rule demands direct equality and hence a failure, but the code compares
the first element and reports the record verified. -/
theorem verify_list_head_counterexample :
    fieldMatchesClaim (.int 5) (.list [.int 5, .int 6, .int 7]) = false
    ∧ (verifyPickingUpdates cst c6send3 [4] [("move_ids", .int 5)]).verified = 1
    ∧ (verifyPickingUpdates cst c6send3 [4] [("move_ids", .int 5)]).failed = 0 :=
  ⟨rfl, rfl, rfl⟩

/-- Witness for C2: on the concrete wire above, the request is sent
twice, one authentication happens, and the retry's result is returned. -/
theorem session_expired_reauth_once_retry_once_witness :
    (makeRequest c2wire).2 = ⟨2, 1⟩ ∧ (makeRequest c2wire).1 = .ok (.int 42) := by
  have h := (session_expired_reauth_once_retry_once c2wire
    (.obj [("message", .str "Odoo Server Error: Session expired")]) rfl
    (by rfl)).2.2.1 rfl
  exact ⟨h.1, h.2.1 rfl⟩

/-- Helper: the in-place group update keeps the group's key. -/
theorem updG_key (k : String) (rid : JVal) (g : Group) : (updG k rid g).key = g.key := by
  unfold updG
  split <;> rfl

/-- Helper: filing under a fresh key appends a new group. -/
theorem addToGroups_not_mem (gs : List Group) (k : String) (fu : Obj) (rid : JVal)
    (h : k ∉ gs.map Group.key) :
    addToGroups gs k fu rid = gs ++ [⟨k, fu, [rid]⟩] := by
  induction gs with
  | nil => rfl
  | cons g0 gs ih =>
    have h0 : ¬ (g0.key == k) = true := by
      simp only [List.map_cons, List.mem_cons] at h
      simp only [beq_iff_eq]
      exact fun he => h (Or.inl he.symm)
    rw [addToGroups, if_neg h0, ih (fun hm => h (by simp [List.mem_cons]; right; simpa using hm))]
    rfl

/-- Helper: the in-place update is the identity off its key. -/
theorem map_updG_not_mem (gs : List Group) (k : String) (rid : JVal)
    (h : k ∉ gs.map Group.key) :
    gs.map (updG k rid) = gs := by
  induction gs with
  | nil => rfl
  | cons g0 gs ih =>
    simp only [List.map_cons, List.mem_cons] at h
    have h0 : ¬ (g0.key == k) = true := by
      simp only [beq_iff_eq]
      exact fun he => h (Or.inl he.symm)
    rw [List.map_cons, updG, if_neg h0, ih (fun hm => h (Or.inr hm))]

/-- Helper: filing under an existing key updates that group in
place. -/
theorem addToGroups_mem (gs : List Group) (k : String) (fu : Obj) (rid : JVal)
    (hmem : k ∈ gs.map Group.key) (hnd : (gs.map Group.key).Nodup) :
    addToGroups gs k fu rid = gs.map (updG k rid) := by
  induction gs with
  | nil => simp at hmem
  | cons g0 gs ih =>
    rw [List.map_cons] at hnd
    cases hk : g0.key == k with
    | true =>
      have hke : g0.key = k := by simpa using hk
      have hnot : k ∉ gs.map Group.key := by
        rw [← hke]
        exact (List.nodup_cons.mp hnd).1
      rw [addToGroups, if_pos hk, List.map_cons, updG, if_pos hk,
        map_updG_not_mem gs k rid hnot]
    | false =>
      have hke : g0.key ≠ k := by simpa using hk
      have hmem2 : k ∈ gs.map Group.key := by
        rw [List.map_cons] at hmem
        rcases List.mem_cons.mp hmem with h | h
        · exact absurd h.symm hke
        · exact h
      rw [addToGroups, if_neg (by simp [hk]), List.map_cons, updG, if_neg (by simp [hk]),
        ih hmem2 (List.nodup_cons.mp hnd).2]

/-- Helper: on valid entries the grouping loop is the pure group
fold. -/
theorem gather_groups_valid (us : List Obj) (s : GatherState)
    (hval : ∀ u ∈ us, truthy (idOf u) = true ∧ (nonIdFields u).isEmpty = false) :
    (us.foldl gatherStep s).groups = groupsFold s.groups us := by
  induction us generalizing s with
  | nil => rfl
  | cons u rest ih =>
    have hu := hval u (List.mem_cons_self _ _)
    have hstep : gatherStep s u =
        { s with groups := addToGroups s.groups (keyOf u) (nonIdFields u) (idOf u) } := by
      have h1 : truthy ((objGet u "id").getD .null) = true := hu.1
      simp [gatherStep, h1, hu.2, keyOf, idOf]
    rw [List.foldl_cons, hstep]
    exact ih _ (fun v hv => hval v (List.mem_cons_of_mem _ hv))

/-- Helper: an empty batch contributes no ids. -/
theorem updAll_nil (g : Group) : updAll [] g = g := by
  cases g
  simp [updAll]

/-- Helper: the group fold extends each existing group with the ids of
the entries sharing its key and appends the spec grouping of the
fresh-keyed entries. -/
theorem groupsFold_spec (us : List Obj) : ∀ (gs : List Group),
    (gs.map Group.key).Nodup →
    groupsFold gs us =
      gs.map (updAll us) ++
        specGroups (us.filter (fun v => !(decide (keyOf v ∈ gs.map Group.key)))) := by
  induction us with
  | nil =>
    intro gs hnd
    have hmap : ∀ l : List Group, List.map (updAll []) l = l := by
      intro l
      induction l with
      | nil => rfl
      | cons a l ih => rw [List.map_cons, updAll_nil, ih]
    rw [groupsFold, List.foldl_nil, List.filter_nil, specGroups, List.append_nil, hmap]
  | cons u rest ih =>
    intro gs hnd
    rw [groupsFold, List.foldl_cons]
    by_cases hmem : keyOf u ∈ gs.map Group.key
    · rw [addToGroups_mem _ _ _ _ hmem hnd]
      have hkeys : (gs.map (updG (keyOf u) (idOf u))).map Group.key = gs.map Group.key := by
        rw [List.map_map]
        exact List.map_congr_left (fun g _ => updG_key _ _ g)
      have hnd2 : ((gs.map (updG (keyOf u) (idOf u))).map Group.key).Nodup := by
        rw [hkeys]; exact hnd
      have hrec := ih (gs.map (updG (keyOf u) (idOf u))) hnd2
      rw [groupsFold] at hrec
      rw [hrec, hkeys]
      have hfu : (fun v => !(decide (keyOf v ∈ gs.map Group.key))) u = false := by
        simp [hmem]
      rw [List.filter_cons_of_neg (by simpa using hfu)]
      congr 1
      rw [List.map_map]
      apply List.map_congr_left
      intro g hg
      show updAll rest (updG (keyOf u) (idOf u) g) = updAll (u :: rest) g
      cases hk : g.key == keyOf u with
      | true =>
        have hke : g.key = keyOf u := by simpa using hk
        have hk2 : (keyOf u == g.key) = true := by simp [hke]
        simp only [updG, hk, if_true, updAll, List.filter_cons, hk2]
        simp [List.append_assoc]
      | false =>
        have hk2 : (keyOf u == g.key) = false := by
          simp only [beq_eq_false_iff_ne, ne_eq] at hk ⊢
          exact fun h => hk h.symm
        simp only [updG, hk, Bool.false_eq_true, if_false, updAll, List.filter_cons, hk2]
    · rw [addToGroups_not_mem _ _ _ _ hmem]
      have hnd2 : (((gs ++ [Group.mk (keyOf u) (nonIdFields u) [idOf u]]).map Group.key)).Nodup := by
        rw [List.map_append]
        rw [List.nodup_append]
        refine ⟨hnd, by simp, ?_⟩
        intro a ha hb
        simp at hb
        subst hb
        exact hmem ha
      have hrec := ih (gs ++ [Group.mk (keyOf u) (nonIdFields u) [idOf u]]) hnd2
      rw [groupsFold] at hrec
      rw [hrec]
      have hfu : (fun v => !(decide (keyOf v ∈ gs.map Group.key))) u = true := by
        simp [hmem]
      rw [List.filter_cons_of_pos (by simpa using hfu), specGroups]
      rw [List.map_append, List.map_append]
      rw [List.append_assoc]
      congr 1
      · -- the untouched groups receive the same ids from `u :: rest` and `rest`
        apply List.map_congr_left
        intro g hg
        have hne : (keyOf u == g.key) = false := by
          simp only [beq_eq_false_iff_ne, ne_eq]
          intro h
          exact hmem (h ▸ List.mem_map_of_mem Group.key hg)
        simp only [updAll, List.filter_cons, hne]
        simp
      · -- the fresh group becomes the head spec group, tails coincide
        simp only [List.map_cons, List.map_nil, List.singleton_append]
        congr 1
        · -- head group
          simp only [updAll]
          have hself : (keyOf u == keyOf u) = true := by simp
          rw [List.filter_cons_of_pos (by simp)]
          have hids : (List.filter (fun v => keyOf v == keyOf u)
                (List.filter (fun v => !decide (keyOf v ∈ gs.map Group.key)) rest)) =
              List.filter (fun v => keyOf v == keyOf u) rest := by
            rw [List.filter_filter]
            apply List.filter_congr
            intro v _
            cases hv : keyOf v == keyOf u with
            | true =>
              have : keyOf v = keyOf u := by simpa using hv
              simp [this, hmem]
            | false => simp
          rw [hids]
          simp
        · -- tail spec groups
          congr 1
          rw [List.filter_filter]
          apply List.filter_congr
          intro v _
          by_cases h2 : keyOf v = keyOf u
          · simp [h2]
          · by_cases h1 : ∃ a ∈ gs, a.key = keyOf v
            · simp [h1, h2]
            · simp [h1, h2]

/-- Helper: the spec grouping's keys are the distinct entry keys in
first-seen order. -/
theorem specGroups_keys : ∀ (us : List Obj),
    (specGroups us).map Group.key = dedupKeys (us.map keyOf)
  | [] => by rw [specGroups, List.map_nil, List.map_nil, dedupKeys]
  | u :: rest => by
    rw [specGroups, List.map_cons, List.map_cons, dedupKeys,
      specGroups_keys (rest.filter (fun v => keyOf v != keyOf u))]
    congr 1
    rw [List.filter_map]
    rfl
termination_by us => us.length
decreasing_by
  simp only [List.length_cons]
  exact Nat.lt_succ_of_le (List.length_filter_le _ _)

/-- C4: for valid entries, the grouping stage of bulk update issues
exactly one write call per distinct canonical key (the sorted-key
serialization of the non-id field-value mapping), in first-seen key
order, each call covering every id sharing the key with the first such
entry's values — so identical mappings never cause a second write call;
the call count equals the number of distinct keys, and for any model
other than `stock.move` (whose normalization is the identity) the whole
`bulk_update_records` issues exactly these calls. -/
theorem bulk_grouping_by_canonical_key (wo : WriteOracle) (updates : List Obj)
    (hval : ∀ u ∈ updates, truthy (idOf u) = true ∧ (nonIdFields u).isEmpty = false) :
    (bulkUpdateCore wo updates).calls =
      (specGroups updates).map (fun g => (g.ids, g.values))
    ∧ (bulkUpdateCore wo updates).calls.length = (dedupKeys (updates.map keyOf)).length
    ∧ (∀ model, model ≠ "stock.move" →
        (bulkUpdateRecords wo model updates).calls =
          (specGroups updates).map (fun g => (g.ids, g.values))) := by
  have hgroups : (updates.foldl gatherStep ⟨[], 0, []⟩).groups = specGroups updates := by
    rw [gather_groups_valid updates ⟨[], 0, []⟩ hval]
    have h2 := groupsFold_spec updates [] (by simp)
    simpa using h2
  have hcalls : (bulkUpdateCore wo updates).calls =
      ((updates.foldl gatherStep ⟨[], 0, []⟩).groups).map (fun g => (g.ids, g.values)) := by
    have hw := write_fold wo ((updates.foldl gatherStep ⟨[], 0, []⟩).groups) ⟨0, 0, [], []⟩
    simpa [bulkUpdateCore] using hw.1
  refine ⟨?_, ?_, ?_⟩
  · rw [hcalls, hgroups]
  · rw [hcalls, hgroups, List.length_map, ← specGroups_keys, List.length_map]
  · intro model hm
    have hbeq : (model == "stock.move") = false := by simpa using hm
    have hnorm : normalizeUpdates updates model = updates := by
      simp [normalizeUpdates, hbeq]
    rw [bulkUpdateRecords]
    cases he : updates.isEmpty with
    | true =>
      have hnil : updates = [] := by simpa using he
      subst hnil
      rw [if_pos rfl, specGroups]
      rfl
    | false =>
      rw [if_neg (by simp [he]), hnorm, hcalls, hgroups]

/-- Witness for C4: a concrete three-entry batch with one shared
mapping, under a write oracle that always raises. -/
theorem bulk_grouping_by_canonical_key_witness :
    (bulkUpdateCore c4wo c4updates).calls =
      (specGroups c4updates).map (fun g => (g.ids, g.values)) :=
  (bulk_grouping_by_canonical_key c4wo c4updates
    (by intro u hu; fin_cases hu <;> exact ⟨rfl, rfl⟩)).1

end Odoo
